import Mathlib

/-!
Verification of the image-build core of dobi (`tasks/image/build.go`).

Modelling conventions (shallow embedding of the Go source):

* Time stamps (`time.Time`, file modification times) are modelled as `Nat`;
  Go's `t.Before(u)` is `t < u`.
* Go `error` values are modelled by `GoErr`; the distinguished value
  `docker.ErrNoSuchImage` is the constructor `GoErr.noSuchImage`, every other
  error is `GoErr.msg s`.  A Go call returning `(T, error)` is modelled as
  `Except GoErr T`; a call returning only `error` as `Option GoErr`
  (`none` = nil error).
* Calls into external collaborators (the docker engine, the filesystem, the
  record store whose implementation lives outside this file's source) are
  modelled as oracle fields of an environment structure: each call site of
  the Go code reads its own field, so distinct call sites may observe
  distinct results, exactly as distinct calls may in Go.
* Strings are modelled at byte granularity: one `Char` of a Lean `String`
  stands for one byte of the Go string/byte-slice, so Go's `len` is
  `String.length`.
-/

/-- Go `error` values as used by `tasks/image/build.go`: either the
distinguished `docker.ErrNoSuchImage` sentinel or some other error
(identified by its message). -/
inductive GoErr where
  | noSuchImage : GoErr
  | msg (s : String) : GoErr
deriving DecidableEq

/-- The part of `docker.Image` read by the source: `image.ID` and
`image.Created` (`go-dockerclient`'s image metadata). -/
structure Image where
  ID : String
  Created : Nat
deriving DecidableEq

/-- `imageModifiedRecord` from the source: the persisted build record,
`{ImageID: string}`.  Its file modification time is not a field; it is
supplied by the storage medium and modelled alongside the record where the
record is read. -/
structure imageModifiedRecord where
  ImageID : String
deriving DecidableEq

/-- The fields of the task configuration (`t.config`) read by
`RunBuild`/`buildImage` and the packing code: the context root directory,
the Dockerfile path and the inline build-steps text. -/
structure TaskConfig where
  Context : String
  Dockerfile : String
  Steps : String
deriving DecidableEq

/-- The external calls `buildIsStale` can make, in the order the source makes
them: `GetImage`, `fs.LastModified`, `getImageRecord`.  `buildIsStale` returns
the list of calls it performed so that theorems can state which external
operations were (not) executed. -/
inductive StaleCall where
  | getImage : StaleCall
  | lastModified : StaleCall
  | getRecord : StaleCall
deriving DecidableEq

/-- Oracle environment for one execution of `RunBuild`: one field per external
call site of the source, holding the result that call would return.
`getImage` is the `GetImage` call inside `buildIsStale`; `getImageInBuild`
the one inside `buildImage`; `getImageAfterBuild` the one in `RunBuild` after
`buildImage` returns.  `getRecord` pairs the parsed record with its file's
modification time (`record.Info.ModTime()`).  The two `update*` fields are
the `updateImageRecord` call sites (inside `buildImage` and at the end of
`RunBuild`), taking the record being written. -/
structure BuildEnv where
  getImage : Except GoErr Image
  lastModified : Except GoErr Nat
  getRecord : Except GoErr (imageModifiedRecord × Nat)
  buildFromSteps : Option GoErr
  buildFromDockerfile : Option GoErr
  getImageInBuild : Except GoErr Image
  updateInBuild : imageModifiedRecord → Option GoErr
  getImageAfterBuild : Except GoErr Image
  updateAfterBuild : imageModifiedRecord → Option GoErr

/-- `buildIsStale` (build.go lines 52-83).  Returns `(stale, err)` plus the
trace of external calls performed.  Source control flow:
`GetImage`: on `docker.ErrNoSuchImage` return `(true, nil)`; on any other
error return `(true, err)`; otherwise `fs.LastModified(t.config.Context)`:
on error return `(true, err)`; then `getImageRecord`: on error, fall back to
`image.Created.Before(mtime)`; on success,
`image.ID != record.ImageID || record.Info.ModTime().Before(mtime)`. -/
def buildIsStale (env : BuildEnv) : (Bool × Option GoErr) × List StaleCall :=
  match env.getImage with
  | .error GoErr.noSuchImage => ((true, none), [StaleCall.getImage])
  | .error e => ((true, some e), [StaleCall.getImage])
  | .ok image =>
    match env.lastModified with
    | .error e => ((true, some e), [StaleCall.getImage, StaleCall.lastModified])
    | .ok mtime =>
      match env.getRecord with
      | .error _ =>
        if image.Created < mtime then
          ((true, none), [StaleCall.getImage, StaleCall.lastModified, StaleCall.getRecord])
        else
          ((false, none), [StaleCall.getImage, StaleCall.lastModified, StaleCall.getRecord])
      | .ok (record, recordModTime) =>
        if image.ID ≠ record.ImageID ∨ recordModTime < mtime then
          ((true, none), [StaleCall.getImage, StaleCall.lastModified, StaleCall.getRecord])
        else
          ((false, none), [StaleCall.getImage, StaleCall.lastModified, StaleCall.getRecord])

/-- The engine-build invocation `buildImage` dispatches to, together with the
configuration data the chosen builder consumes: `buildImageFromSteps` uses
the inline steps text (packed into the tarball), `buildImageFromDockerfile`
sets `opts.Dockerfile = t.config.Dockerfile` and
`opts.ContextDir = t.config.Context`. -/
inductive BuildCall where
  | fromSteps (steps : String) : BuildCall
  | fromDockerfile (dockerfile contextDir : String) : BuildCall
deriving DecidableEq

/-- `buildImage` (build.go lines 85-101).  Returns the nil/non-nil error the
Go function returns, plus the builder invocation it dispatched to.  Source:
`if t.config.Steps != "" { buildImageFromSteps } else { buildImageFromDockerfile }`;
on error return it; then `GetImage`; on error return it; then
`return updateImageRecord(recordPath(...), imageModifiedRecord{ImageID: image.ID})`
— note the record-write error is returned. -/
def buildImage (env : BuildEnv) (cfg : TaskConfig) : Option GoErr × List BuildCall :=
  let chosen :=
    if cfg.Steps ≠ "" then (env.buildFromSteps, [BuildCall.fromSteps cfg.Steps])
    else (env.buildFromDockerfile, [BuildCall.fromDockerfile cfg.Dockerfile cfg.Context])
  match chosen.1 with
  | some e => (some e, chosen.2)
  | none =>
    match env.getImageInBuild with
    | .error e => (some e, chosen.2)
    | .ok image => (env.updateInBuild { ImageID := image.ID }, chosen.2)

/-- The warnings `RunBuild` itself logs with `Warnf`: the failure of its final
`updateImageRecord` call. -/
inductive Warning where
  | recordUpdateFailed (e : GoErr) : Warning
deriving DecidableEq

/-- The tail of `RunBuild` after the staleness guard (build.go lines 32-49):
`buildImage`; on error return `(false, err)`; `GetImage`; on error return
`(false, err)`; `updateImageRecord` — on error only `Warnf` (logged, result
unchanged); finally return `(true, nil)`. -/
def runBuildCore (env : BuildEnv) (cfg : TaskConfig) : (Bool × Option GoErr) × List Warning :=
  match (buildImage env cfg).1 with
  | some e => ((false, some e), [])
  | none =>
    match env.getImageAfterBuild with
    | .error e => ((false, some e), [])
    | .ok image =>
      match env.updateAfterBuild { ImageID := image.ID } with
      | some e => ((true, none), [Warning.recordUpdateFailed e])
      | none => ((true, none), [])

/-- `RunBuild` (build.go lines 21-50).  If `hasModifiedDeps` is false the
staleness oracle is consulted: a non-nil error returns `(false, err)`, a
fresh verdict returns `(false, nil)`, otherwise (and when `hasModifiedDeps`
is true) the build tail `runBuildCore` runs.  The second component collects
the warnings `RunBuild` logs. -/
def RunBuild (env : BuildEnv) (cfg : TaskConfig) (hasModifiedDeps : Bool) :
    (Bool × Option GoErr) × List Warning :=
  if !hasModifiedDeps then
    match (buildIsStale env).1 with
    | (_, some e) => ((false, some e), [])
    | (false, none) => ((false, none), [])
    | (true, none) => runBuildCore env cfg
  else runBuildCore env cfg

/-!
Filesystem model for `scanRoot2Slice` (build.go lines 261-269) and
`scanIgnored` (lines 242-255).  The walk callback in the source is

    func(path string, f os.FileInfo, err error) error {
        if !f.IsDir() { placeholder = append(placeholder, path) }
        return nil
    }

It ignores the `err` argument, always returns nil, and calls `f.IsDir()`
without a nil check.  `filepath.Walk` semantics (Go standard library):
if `lstat(root)` fails, `Walk` returns `walkFn(root, nil, err)` — a nil
`FileInfo` reaches the callback; inside `walk`, a failing `readDirNames`
leads to `walkFn(path, info, err)` whose return value (here nil) becomes the
result, so the directory is skipped with the error dropped; a failing
`lstat` of a child calls `walkFn(child, nil, err)` — again a nil `FileInfo`.
A `FsTree` node records what the filesystem yields at each point:
`badStat` = lstat of this path fails, `badDir` = this directory's listing
fails, `dir` = directory with named children in the (sorted) order
`readDirNames` returns, `file` = any non-directory entry.
-/

/-- A filesystem subtree as observed by `filepath.Walk`. -/
inductive FsTree where
  | file : FsTree
  | badStat (e : GoErr) : FsTree
  | badDir (e : GoErr) : FsTree
  | dir (children : List (String × FsTree)) : FsTree

/-- Outcome of `scanRoot2Slice`: either the Go function returns
`(placeholder, err)` (`done`), or the walk callback dereferences a nil
`os.FileInfo` and the program panics (`panicked`, carrying the paths
accumulated before the crash). -/
inductive WalkRes where
  | done (acc : List String) (err : Option GoErr) : WalkRes
  | panicked (acc : List String) : WalkRes
deriving DecidableEq

mutual

/-- One `walk(path, info, walkFn)` step of `filepath.Walk` specialized to the
source's callback.  `.error acc` signals the nil-`FileInfo` panic; `.ok acc`
is normal continuation with the accumulated path list.  A non-directory
appends its path; a directory whose listing fails is skipped silently
(the callback returns nil for it, so `walk` returns nil); a readable
directory recurses into its children. -/
def walkNode (path : String) (t : FsTree) (acc : List String) :
    Except (List String) (List String) :=
  match t with
  | .badStat _ => .error acc
  | .file => .ok (acc ++ [path])
  | .badDir _ => .ok acc
  | .dir children => walkChildren path children acc

/-- The child loop of `walk`: for each entry, `lstat` it (failure hands the
callback a nil `FileInfo` — panic) and recurse.  Paths are joined as
`dir ++ "/" ++ name` (`filepath.Join` on already-clean paths). -/
def walkChildren (path : String) (cs : List (String × FsTree)) (acc : List String) :
    Except (List String) (List String) :=
  match cs with
  | [] => .ok acc
  | (name, c) :: rest =>
    match walkNode (path ++ "/" ++ name) c acc with
    | .error acc2 => .error acc2
    | .ok acc2 => walkChildren path rest acc2

end

/-- `scanRoot2Slice` (build.go lines 261-269): runs `filepath.Walk(root, fn)`
with the callback above and returns `(placeholder, err)`.  If `lstat(root)`
itself fails, `Walk` invokes the callback with a nil `FileInfo` — panic.
Otherwise the callback never returns a non-nil error, so the error returned
by `Walk` — and hence by `scanRoot2Slice` — is always nil. -/
def scanRoot2Slice (root : String) (t : FsTree) (placeholder : List String) : WalkRes :=
  match t with
  | .badStat _ => .panicked placeholder
  | t =>
    match walkNode root t placeholder with
    | .error acc => .panicked acc
    | .ok acc => .done acc none

/-- The loop of `scanIgnored` over the resolved ignore roots:
`resolvedignores, err = scanRoot2Slice(val, resolvedignores)`; a non-nil
error returns immediately with the partial accumulation. -/
def scanIgnoredLoop (vals : List (String × FsTree)) (acc : List String) : WalkRes :=
  match vals with
  | [] => .done acc none
  | (val, t) :: rest =>
    match scanRoot2Slice val t acc with
    | .panicked acc2 => .panicked acc2
    | .done acc2 (some e) => .done acc2 (some e)
    | .done acc2 none => scanIgnoredLoop rest acc2

/-- `scanIgnored` (build.go lines 242-255): `dockerignore.ReadAll()` yields
the ignore-pattern roots (modelled as an oracle result pairing each root
path with the filesystem subtree found there); on error return
`([], err)`; otherwise fold `scanRoot2Slice` over the roots. -/
def scanIgnored (allIgnored : Except GoErr (List (String × FsTree))) : WalkRes :=
  match allIgnored with
  | .error e => .done [] (some e)
  | .ok vals => scanIgnoredLoop vals []

/-!
Tar-packing model for `writeTarball`, `writeDockerfiletoTarBall` and
`writeFilesToTarBall` (build.go lines 145-240).  A `tar.Writer` is modelled
at the granularity the source drives it: a stream of tokens, one
`TarToken.header` per `tr.WriteHeader(header)` and one `TarToken.bytes` per
`tr.Write(byt)`.  Unpacking parses that stream back into entries, requiring
each entry's written content to match the size declared in its header
(a tar reader yields exactly `Size` bytes of content per entry).
-/

/-- The `tar.Header` fields the source sets: `Name`, `Size`, `Mode` (left at
its zero value `0` for the Dockerfile entry), and the three timestamps
`ModTime`/`AccessTime`/`ChangeTime`. -/
structure TarHeader where
  name : String
  size : Nat
  mode : Nat
  modTime : Nat
  accessTime : Nat
  changeTime : Nat
deriving DecidableEq

/-- One operation applied to the `tar.Writer`. -/
inductive TarToken where
  | header (h : TarHeader) : TarToken
  | bytes (b : String) : TarToken
deriving DecidableEq

/-- An entry recovered by unpacking the archive stream. -/
structure TarEntry where
  header : TarHeader
  content : String
deriving DecidableEq

/-- Close the entry currently being read (if any): its accumulated content
must have exactly the byte length its header declared. -/
def closeEntry (cur : Option (TarHeader × String)) (acc : List TarEntry) :
    Option (List TarEntry) :=
  match cur with
  | none => some acc
  | some (h, content) =>
    if content.length = h.size then some (acc ++ [{ header := h, content := content }])
    else none

/-- Left-to-right parse of the token stream: a header opens a new entry
(closing the previous one), bytes extend the open entry's content; bytes
before any header are malformed. -/
def unpackAux (ts : List TarToken) (cur : Option (TarHeader × String))
    (acc : List TarEntry) : Option (List TarEntry) :=
  match ts with
  | [] => closeEntry cur acc
  | .header h :: rest =>
    match closeEntry cur acc with
    | none => none
    | some acc2 => unpackAux rest (some (h, "")) acc2
  | .bytes b :: rest =>
    match cur with
    | none => none
    | some (h, content) => unpackAux rest (some (h, content ++ b)) acc

/-- Unpack an archive token stream into its entries. -/
def unpackTokens (ts : List TarToken) : Option (List TarEntry) :=
  unpackAux ts none []

/-- `writeDockerfiletoTarBall` (build.go lines 188-203): one synthetic entry
named `"Dockerfile"`, sized `len([]byte(t.config.Steps))`, all three
timestamps set to `rightNow := time.Now()`, followed by the steps text
itself.  Both tar-writer calls succeed on the in-memory buffer (exactly
`Size` bytes are written), so the Go function returns nil. -/
def writeDockerfiletoTarBall (now : Nat) (steps : String) : List TarToken :=
  [TarToken.header
    { name := "Dockerfile", size := steps.length, mode := 0,
      modTime := now, accessTime := now, changeTime := now },
   TarToken.bytes steps]

/-- `strings.TrimPrefix(s, p)`: drop `p` from the front of `s` when `s`
starts with it, otherwise return `s` unchanged (byte granularity). -/
def trimLeading (s p : String) : String :=
  if p.data.isPrefixOf s.data then { data := s.data.drop p.data.length } else s

/-- The components of a unix path split at every `/` (empty components
included), used to model `filepath.Base`. -/
def splitOnSlash (cs : List Char) : List (List Char) :=
  match cs with
  | [] => [[]]
  | c :: rest =>
    if c = '/' then [] :: splitOnSlash rest
    else
      match splitOnSlash rest with
      | comp :: comps => (c :: comp) :: comps
      | [] => [[c]]

/-- `filepath.Base` on unix paths: `"."` for the empty path, the last
non-empty slash-separated component, or `"/"` when the path consists only
of slashes. -/
def baseName (path : String) : String :=
  if path = "" then "."
  else
    match ((splitOnSlash path.data).filter (fun c => c ≠ [])).getLast? with
    | some b => { data := b }
    | none => "/"

/-- Oracle environment for one execution of `writeTarball`:
`tarContext` is the result of `getTarContext()` (the fork-join of
`scanContext`/`scanIgnored` followed by `dockerignore.Difference`),
`stat`/`readFile` give, per path, the results of `os.Stat` (its mode bits)
and `ioutil.ReadFile`, and `now` is the wall-clock reading `time.Now()`
yields during the pack. -/
structure PackEnv where
  tarContext : Except GoErr (List String)
  stat : String → Except GoErr Nat
  readFile : String → Except GoErr String
  now : Nat

/-- The per-file loop of `writeFilesToTarBall` (build.go lines 210-238): for
each path, `os.Stat` (error aborts), `ioutil.ReadFile` (error aborts), then
a header named `strings.TrimPrefix(file, filepath.Base(t.config.Context)+"/")`
with `Size = len(byt)`, `Mode` copied from the stat, and the three
timestamps set to `time.Now()`, followed by the content. -/
def writeFilesLoop (env : PackEnv) (cfg : TaskConfig) (paths : List String) :
    Except GoErr (List TarToken) :=
  match paths with
  | [] => .ok []
  | file :: rest =>
    match env.stat file with
    | .error e => .error e
    | .ok fileMode =>
      match env.readFile file with
      | .error e => .error e
      | .ok byt =>
        match writeFilesLoop env cfg rest with
        | .error e => .error e
        | .ok toks =>
          .ok (TarToken.header
                { name := trimLeading file (baseName cfg.Context ++ "/"),
                  size := byt.length, mode := fileMode,
                  modTime := env.now, accessTime := env.now, changeTime := env.now }
               :: TarToken.bytes byt :: toks)

/-- `writeFilesToTarBall` (build.go lines 205-240): `getTarContext()` (error
aborts), then the per-file loop. -/
def writeFilesToTarBall (env : PackEnv) (cfg : TaskConfig) : Except GoErr (List TarToken) :=
  match env.tarContext with
  | .error e => .error e
  | .ok paths => writeFilesLoop env cfg paths

/-- `writeTarball` (build.go lines 145-158): the Dockerfile entry, then the
context files; an error from either part is returned to the caller (the
partially filled buffer is discarded by callers on error). -/
def writeTarball (env : PackEnv) (cfg : TaskConfig) : Except GoErr (List TarToken) :=
  match writeFilesToTarBall env cfg with
  | .error e => .error e
  | .ok fileToks => .ok (writeDockerfiletoTarBall env.now cfg.Steps ++ fileToks)

/-- The token stream claim C9 predicts for the filtered file set, given the
mode and content each file turns out to have: per path, a header whose name
is the path with `baseName(context) ++ "/"` stripped, whose size is the
content's byte length, whose mode is the stat's mode, and whose three
timestamps are the pack-time clock, followed by the content bytes.
(Stated from the spec's words, to be compared with `writeFilesToTarBall`.) -/
def expectedFileTokens (cfg : TaskConfig) (now : Nat) (fileMode : String → Nat)
    (content : String → String) (paths : List String) : List TarToken :=
  match paths with
  | [] => []
  | p :: rest =>
    TarToken.header
      { name := trimLeading p (baseName cfg.Context ++ "/"),
        size := (content p).length, mode := fileMode p,
        modTime := now, accessTime := now, changeTime := now }
    :: TarToken.bytes (content p)
    :: expectedFileTokens cfg now fileMode content rest

/-!
Concrete fixtures used by the witness theorems below.  `defaultBuildEnv` is a
base oracle environment; each fixture overrides exactly the fields its
scenario exercises.
-/

/-- Base oracle environment for concrete scenarios. -/
def defaultBuildEnv : BuildEnv :=
  { getImage := .error GoErr.noSuchImage
    lastModified := .ok 0
    getRecord := .error (GoErr.msg "missing")
    buildFromSteps := none
    buildFromDockerfile := none
    getImageInBuild := .ok { ID := "img1", Created := 3 }
    updateInBuild := fun _ => none
    getImageAfterBuild := .ok { ID := "img1", Created := 3 }
    updateAfterBuild := fun _ => none }

/-- Steps-based task configuration for the C1 scenarios. -/
def cfgC1 : TaskConfig := { Context := "ctx1", Dockerfile := "", Steps := "FROM x" }

/-- Environment where only `buildImage`'s internal record write fails. -/
def envC1x : BuildEnv :=
  { defaultBuildEnv with updateInBuild := fun _ => some (GoErr.msg "disk full") }

/-- Environment where only `RunBuild`'s final record write fails. -/
def envC1w : BuildEnv :=
  { defaultBuildEnv with updateAfterBuild := fun _ => some (GoErr.msg "read-only fs") }

/-- Environment with a readable record whose stored identifier differs from
the looked-up image identifier and whose file mtime is newer than the
context mtime. -/
def envC2f : BuildEnv :=
  { defaultBuildEnv with
    getImage := .ok { ID := "new", Created := 7 }
    lastModified := .ok 5
    getRecord := .ok ({ ImageID := "old" }, 9) }

/-- Environment where the record read fails and the image is newer than the
context. -/
def envC3f : BuildEnv :=
  { defaultBuildEnv with
    getImage := .ok { ID := "cur", Created := 9 }
    lastModified := .ok 4
    getRecord := .error (GoErr.msg "corrupt") }

/-- Environment where the image lookup reports `ErrNoSuchImage`. -/
def envC4f : BuildEnv := defaultBuildEnv

/-- Steps-based task configuration for the idempotence scenario. -/
def cfgC5 : TaskConfig := { Context := "ctx5", Dockerfile := "", Steps := "FROM z" }

/-- First run of the idempotence scenario: no image yet, record writes
succeed. -/
def envC5a : BuildEnv :=
  { defaultBuildEnv with
    getImageInBuild := .ok { ID := "sha256:new", Created := 4 }
    getImageAfterBuild := .ok { ID := "sha256:new", Created := 4 } }

/-- Second run of the idempotence scenario: the image exists, the record
stores its identifier, and the record file (mtime 5) is newer than the
unchanged context (mtime 3). -/
def envC5b : BuildEnv :=
  { defaultBuildEnv with
    getImage := .ok { ID := "sha256:new", Created := 4 }
    lastModified := .ok 3
    getRecord := .ok ({ ImageID := "sha256:new" }, 5) }

/-- A root directory with two readable files and one subdirectory whose
directory listing fails (for instance with a permission error). -/
def treeC6 : FsTree :=
  .dir [("a", .file), ("sub", .badDir (GoErr.msg "permission denied")), ("z", .file)]

/-- One ignore-pattern root naming a path that does not exist, so its
`lstat` fails. -/
def ignoredC7 : Except GoErr (List (String × FsTree)) :=
  .ok [("missing", FsTree.badStat (GoErr.msg "no such file or directory"))]

/-- Pack environment with an empty filtered file set. -/
def envC8 : PackEnv :=
  { tarContext := .ok []
    stat := fun _ => .error (GoErr.msg "unused")
    readFile := fun _ => .error (GoErr.msg "unused")
    now := 7 }

/-- Steps-based task configuration for the round-trip scenario. -/
def cfgC8 : TaskConfig := { Context := "ctx8", Dockerfile := "", Steps := "FROM x" }

/-- Pack environment with one context file whose stat and read succeed. -/
def envC9 : PackEnv :=
  { tarContext := .ok ["ctx9/a.txt"]
    stat := fun _ => .ok 420
    readFile := fun _ => .ok "hello"
    now := 9 }

/-- Task configuration whose context root is `ctx9`. -/
def cfgC9 : TaskConfig := { Context := "ctx9", Dockerfile := "", Steps := "" }

/-- Environment for the dispatch scenario. -/
def envC10 : BuildEnv := defaultBuildEnv

/-- Configuration with both a Dockerfile path and non-empty inline steps. -/
def cfgC10 : TaskConfig :=
  { Context := "ctx10", Dockerfile := "Dockerfile.alt", Steps := "FROM y" }

/-!
Theorems.  Each claim theorem is preceded by a doc comment naming the claim.
-/

/-- C2: when the build record is readable, `buildIsStale` returns stale=true
exactly when the stored image identifier differs from the looked-up image
identifier or the record file's modification time is strictly before the
context's latest modification time, with a nil error; in particular an ID
mismatch is stale regardless of timestamps and equal timestamps are fresh. -/
theorem buildIsStale_readableRecord (env : BuildEnv) (img : Image) (mt : Nat)
    (rec : imageModifiedRecord) (rmt : Nat)
    (h1 : env.getImage = .ok img) (h2 : env.lastModified = .ok mt)
    (h3 : env.getRecord = .ok (rec, rmt)) :
    ((buildIsStale env).1.1 = true ↔ (img.ID ≠ rec.ImageID ∨ rmt < mt)) ∧
    (buildIsStale env).1.2 = none := by
  by_cases hc : img.ID ≠ rec.ImageID ∨ rmt < mt <;>
    simp [buildIsStale, h1, h2, h3, hc]

theorem buildIsStale_readableRecord_witness :
    ((buildIsStale envC2f).1.1 = true ↔ (("new" : String) ≠ "old" ∨ (9 : Nat) < 5)) ∧
    (buildIsStale envC2f).1.2 = none :=
  buildIsStale_readableRecord envC2f { ID := "new", Created := 7 } 5
    { ImageID := "old" } 9 rfl rfl rfl

/-- C3: when reading the build record fails, `buildIsStale` swallows that
error and falls back to comparing the image creation time with the context
modification time: stale=true with nil error exactly when the image was
created strictly before the context's latest modification, stale=false with
nil error otherwise. -/
theorem buildIsStale_recordReadFailure (env : BuildEnv) (img : Image) (mt : Nat)
    (e : GoErr)
    (h1 : env.getImage = .ok img) (h2 : env.lastModified = .ok mt)
    (h3 : env.getRecord = .error e) :
    ((buildIsStale env).1.1 = true ↔ img.Created < mt) ∧
    (buildIsStale env).1.2 = none := by
  by_cases hc : img.Created < mt <;>
    simp [buildIsStale, h1, h2, h3, hc]

theorem buildIsStale_recordReadFailure_witness :
    ((buildIsStale envC3f).1.1 = true ↔ (9 : Nat) < 4) ∧
    (buildIsStale envC3f).1.2 = none :=
  buildIsStale_recordReadFailure envC3f { ID := "cur", Created := 9 } 4
    (GoErr.msg "corrupt") rfl rfl rfl

/-- C4: when the image lookup reports `ErrNoSuchImage`, `buildIsStale`
returns `(true, nil)` having performed only the lookup (no modification-time
computation, no record read, as the call trace shows); on any other lookup
error it returns `(true, err)` with that error, again after the lookup
alone. -/
theorem buildIsStale_imageLookup (env : BuildEnv) :
    (env.getImage = .error GoErr.noSuchImage →
      buildIsStale env = ((true, none), [StaleCall.getImage])) ∧
    (∀ s : String, env.getImage = .error (GoErr.msg s) →
      buildIsStale env = ((true, some (GoErr.msg s)), [StaleCall.getImage])) := by
  constructor
  · intro h
    simp [buildIsStale, h]
  · intro s h
    simp [buildIsStale, h]

theorem buildIsStale_imageLookup_witness :
    buildIsStale envC4f = ((true, none), [StaleCall.getImage]) :=
  (buildIsStale_imageLookup envC4f).1 rfl

/-- C1 (amended): once the build tail runs, if `buildImage` succeeds (which
includes its own internal record write) and the subsequent image lookup
succeeds, then a failure of `RunBuild`'s final `updateImageRecord` call is
logged as a warning only and never causes `RunBuild` to return an error:
the result is `(true, nil)` regardless of that write's outcome. -/
theorem runBuild_warnOnlyFinalRecordWrite (env : BuildEnv) (cfg : TaskConfig)
    (hmd : Bool) (img : Image)
    (hstale : hmd = true ∨ (buildIsStale env).1 = (true, none))
    (hbuild : (buildImage env cfg).1 = none)
    (himg : env.getImageAfterBuild = .ok img) :
    (RunBuild env cfg hmd).1 = (true, none) ∧
    (∀ e, env.updateAfterBuild { ImageID := img.ID } = some e →
      (RunBuild env cfg hmd).2 = [Warning.recordUpdateFailed e]) := by
  have hcore1 : (runBuildCore env cfg).1 = (true, none) := by
    cases h : env.updateAfterBuild { ImageID := img.ID } <;>
      simp [runBuildCore, hbuild, himg, h]
  have hcore2 : ∀ e, env.updateAfterBuild { ImageID := img.ID } = some e →
      (runBuildCore env cfg).2 = [Warning.recordUpdateFailed e] := by
    intro e he
    simp [runBuildCore, hbuild, himg, he]
  have hrun : RunBuild env cfg hmd = runBuildCore env cfg := by
    rcases hstale with h | h
    · subst h
      simp [RunBuild]
    · cases hmd with
      | true => simp [RunBuild]
      | false => simp [RunBuild, h]
  rw [hrun]
  exact ⟨hcore1, hcore2⟩

theorem runBuild_warnOnlyFinalRecordWrite_witness :
    (RunBuild envC1w cfgC1 true).1 = (true, none) ∧
    (RunBuild envC1w cfgC1 true).2 = [Warning.recordUpdateFailed (GoErr.msg "read-only fs")] := by
  have h := runBuild_warnOnlyFinalRecordWrite envC1w cfgC1 true
    { ID := "img1", Created := 3 } (Or.inl rfl) rfl rfl
  exact ⟨h.1, h.2 (GoErr.msg "read-only fs") rfl⟩

/-- C1 (counterexample): the engine build succeeds (`buildFromSteps` returns
nil) but the record write performed inside `buildImage` fails; `RunBuild`
then returns that error, so a record-persist failure after a successful
image build can fail the overall build, contrary to the claim. -/
theorem runBuild_recordWriteFailure_cex :
    envC1x.buildFromSteps = none ∧
    envC1x.updateInBuild { ImageID := "img1" } = some (GoErr.msg "disk full") ∧
    (RunBuild envC1x cfgC1 true).1 = (false, some (GoErr.msg "disk full")) :=
  ⟨rfl, rfl, rfl⟩

/-- C5: from a state with no image, a run whose build and record writes
succeed is stale (and returns built=true); a second run that sees the image,
an unchanged context, and a record carrying that image's identifier with a
file mtime at or after the context mtime is fresh (and returns
built=false). -/
theorem build_idempotence (env1 env2 : BuildEnv) (cfg : TaskConfig)
    (img : Image) (mt rt : Nat)
    (h1 : env1.getImage = .error GoErr.noSuchImage)
    (h2 : (buildImage env1 cfg).1 = none)
    (h3 : ∃ i, env1.getImageAfterBuild = .ok i)
    (h4 : env2.getImage = .ok img)
    (h5 : env2.lastModified = .ok mt)
    (h6 : env2.getRecord = .ok ({ ImageID := img.ID }, rt))
    (h7 : mt ≤ rt) :
    (buildIsStale env1).1 = (true, none) ∧ (RunBuild env1 cfg false).1 = (true, none) ∧
    (buildIsStale env2).1 = (false, none) ∧ (RunBuild env2 cfg false).1 = (false, none) := by
  have hs1 : (buildIsStale env1).1 = (true, none) := by
    simp [buildIsStale, h1]
  have hs2 : (buildIsStale env2).1 = (false, none) := by
    have hlt : ¬ rt < mt := Nat.not_lt.mpr h7
    simp [buildIsStale, h4, h5, h6, hlt]
  obtain ⟨i, hi⟩ := h3
  have hr1 : (RunBuild env1 cfg false).1 = (true, none) := by
    have hcore : (runBuildCore env1 cfg).1 = (true, none) := by
      cases h : env1.updateAfterBuild { ImageID := i.ID } <;>
        simp [runBuildCore, h2, hi, h]
    simp [RunBuild, hs1, hcore]
  have hr2 : (RunBuild env2 cfg false).1 = (false, none) := by
    simp [RunBuild, hs2]
  exact ⟨hs1, hr1, hs2, hr2⟩

theorem build_idempotence_witness :
    (buildIsStale envC5a).1 = (true, none) ∧ (RunBuild envC5a cfgC5 false).1 = (true, none) ∧
    (buildIsStale envC5b).1 = (false, none) ∧ (RunBuild envC5b cfgC5 false).1 = (false, none) :=
  build_idempotence envC5a envC5b cfgC5 { ID := "sha256:new", Created := 4 } 3 5
    rfl rfl ⟨{ ID := "sha256:new", Created := 4 }, rfl⟩ rfl rfl rfl (by decide)

/-- C6 (code evaluation at the failing input): scanning a root whose
subdirectory `sub` has an unreadable listing returns the other files with a
NIL error — the walk error is swallowed, not surfaced, because the callback
ignores its error argument and returns nil; and scanning a root whose own
`lstat` fails hands the callback a nil `os.FileInfo`, which it dereferences
— a panic, not an error return.  Both contradict the claim that any walk
error aborts the scan and is returned to the caller. -/
theorem scanRoot2Slice_swallowsWalkError :
    scanRoot2Slice "root" treeC6 [] = .done ["root/a", "root/z"] none ∧
    scanRoot2Slice "gone" (FsTree.badStat (GoErr.msg "no such file or directory")) []
      = .panicked [] :=
  ⟨rfl, rfl⟩

/-- C7 (code evaluation at the failing input): resolving an ignore pattern
whose root path does not exist is not "silently empty": `filepath.Walk`
calls the callback with a nil `os.FileInfo` and the `lstat` error, the
callback calls `f.IsDir()` on that nil interface, and the program panics. -/
theorem scanIgnored_missingRootPanics :
    scanIgnored ignoredC7 = .panicked [] :=
  rfl

/-- C8: packing a build-step text with an empty filtered file set succeeds,
and unpacking the resulting archive yields exactly one entry named
`"Dockerfile"` whose content is the text verbatim, whose size is the text's
byte length, and whose modification, access and change timestamps are all
the pack-time wall clock. -/
theorem writeTarball_roundTrip (env : PackEnv) (cfg : TaskConfig)
    (h : env.tarContext = .ok []) :
    writeTarball env cfg = .ok (writeDockerfiletoTarBall env.now cfg.Steps) ∧
    unpackTokens (writeDockerfiletoTarBall env.now cfg.Steps) =
      some [{ header := { name := "Dockerfile", size := cfg.Steps.length, mode := 0,
                          modTime := env.now, accessTime := env.now,
                          changeTime := env.now },
              content := cfg.Steps }] := by
  constructor
  · simp [writeTarball, writeFilesToTarBall, h, writeFilesLoop]
  · have he : ("" : String) ++ cfg.Steps = cfg.Steps := rfl
    simp [unpackTokens, unpackAux, closeEntry, writeDockerfiletoTarBall, he]

theorem writeTarball_roundTrip_witness :
    writeTarball envC8 cfgC8 = .ok (writeDockerfiletoTarBall 7 "FROM x") ∧
    unpackTokens (writeDockerfiletoTarBall 7 "FROM x") =
      some [{ header := { name := "Dockerfile", size := 6, mode := 0,
                          modTime := 7, accessTime := 7, changeTime := 7 },
              content := "FROM x" }] :=
  writeTarball_roundTrip envC8 cfgC8 rfl

/-- Helper: when every stat and read in the path list succeeds, the per-file
loop emits exactly the predicted token groups, in order. -/
theorem writeFilesLoop_ok (env : PackEnv) (cfg : TaskConfig)
    (fileMode : String → Nat) (content : String → String) (paths : List String) :
    (∀ p ∈ paths, env.stat p = .ok (fileMode p)) →
    (∀ p ∈ paths, env.readFile p = .ok (content p)) →
    writeFilesLoop env cfg paths =
      .ok (expectedFileTokens cfg env.now fileMode content paths) := by
  induction paths with
  | nil =>
    intro _ _
    rfl
  | cons p rest ih =>
    intro hs hr
    have hsp : env.stat p = .ok (fileMode p) := hs p (List.mem_cons_self p rest)
    have hrp : env.readFile p = .ok (content p) := hr p (List.mem_cons_self p rest)
    have ih2 := ih (fun q hq => hs q (List.mem_cons_of_mem p hq))
      (fun q hq => hr q (List.mem_cons_of_mem p hq))
    simp [writeFilesLoop, expectedFileTokens, hsp, hrp, ih2]

/-- Helper: when every file before `p` succeeds and `p`'s stat or read fails
with `e`, the per-file loop aborts with `e`. -/
theorem writeFilesLoop_err (env : PackEnv) (cfg : TaskConfig) (e : GoErr)
    (p : String) (rest : List String) :
    ∀ pre : List String,
      (∀ q ∈ pre, (∃ m, env.stat q = .ok m) ∧ (∃ c, env.readFile q = .ok c)) →
      (env.stat p = .error e ∨ ∃ m, env.stat p = .ok m ∧ env.readFile p = .error e) →
      writeFilesLoop env cfg (pre ++ p :: rest) = .error e := by
  intro pre
  induction pre with
  | nil =>
    intro _ hfail
    rcases hfail with h | ⟨m, hm, hrd⟩
    · simp [writeFilesLoop, h]
    · simp [writeFilesLoop, hm, hrd]
  | cons q pre2 ih =>
    intro hpre hfail
    obtain ⟨⟨m, hm⟩, ⟨c, hc⟩⟩ := hpre q (List.mem_cons_self q pre2)
    have ih2 := ih (fun r hrr => hpre r (List.mem_cons_of_mem q hrr)) hfail
    simp [writeFilesLoop, hm, hc, ih2]

/-- C9: for every path in the filtered file set the packer emits an archive
entry named the path with `filepath.Base(context) ++ "/"` stripped, sized by
the file's content length, with mode bits copied from the source file and
all three timestamps set to the pack-time wall clock; and any stat or read
failure for any single file (all earlier files having succeeded) aborts the
entire pack with that error. -/
theorem writeFilesToTarBall_spec (env : PackEnv) (cfg : TaskConfig) :
    (∀ (paths : List String) (fileMode : String → Nat) (content : String → String),
      env.tarContext = .ok paths →
      (∀ p ∈ paths, env.stat p = .ok (fileMode p)) →
      (∀ p ∈ paths, env.readFile p = .ok (content p)) →
      writeFilesToTarBall env cfg =
        .ok (expectedFileTokens cfg env.now fileMode content paths)) ∧
    (∀ (pre : List String) (p : String) (rest : List String) (e : GoErr),
      env.tarContext = .ok (pre ++ p :: rest) →
      (∀ q ∈ pre, (∃ m, env.stat q = .ok m) ∧ (∃ c, env.readFile q = .ok c)) →
      (env.stat p = .error e ∨ ∃ m, env.stat p = .ok m ∧ env.readFile p = .error e) →
      writeFilesToTarBall env cfg = .error e) := by
  constructor
  · intro paths fileMode content hc hs hr
    simp [writeFilesToTarBall, hc,
      writeFilesLoop_ok env cfg fileMode content paths hs hr]
  · intro pre p rest e hc hpre hfail
    simp [writeFilesToTarBall, hc,
      writeFilesLoop_err env cfg e p rest pre hpre hfail]

theorem writeFilesToTarBall_spec_witness :
    writeFilesToTarBall envC9 cfgC9 =
      .ok [TarToken.header { name := "a.txt", size := 5, mode := 420,
                             modTime := 9, accessTime := 9, changeTime := 9 },
           TarToken.bytes "hello"] := by
  have h := (writeFilesToTarBall_spec envC9 cfgC9).1 ["ctx9/a.txt"]
    (fun _ => 420) (fun _ => "hello") rfl (fun _ _ => rfl) (fun _ _ => rfl)
  exact h.trans rfl

/-- C10: `buildImage` dispatches to the inline-steps builder exactly when the
configured steps text is non-empty, and to the Dockerfile builder (with the
configured Dockerfile path and context directory, even when that path is
empty) exactly when it is empty; no exactly-one-of-the-two validation is
performed — with both configured the steps win and the Dockerfile path is
ignored. -/
theorem buildImage_dispatch (env : BuildEnv) (cfg : TaskConfig) :
    ((buildImage env cfg).2 = [BuildCall.fromSteps cfg.Steps] ↔ cfg.Steps ≠ "") ∧
    ((buildImage env cfg).2 = [BuildCall.fromDockerfile cfg.Dockerfile cfg.Context] ↔
      cfg.Steps = "") := by
  have h2 : (buildImage env cfg).2 =
      if cfg.Steps ≠ "" then [BuildCall.fromSteps cfg.Steps]
      else [BuildCall.fromDockerfile cfg.Dockerfile cfg.Context] := by
    by_cases h : cfg.Steps = ""
    · cases he : env.buildFromDockerfile with
      | some e => simp [buildImage, h, he]
      | none => cases hi : env.getImageInBuild <;> simp [buildImage, h, he, hi]
    · cases he : env.buildFromSteps with
      | some e => simp [buildImage, h, he]
      | none => cases hi : env.getImageInBuild <;> simp [buildImage, h, he, hi]
  by_cases h : cfg.Steps = "" <;> simp [h2, h]

theorem buildImage_dispatch_witness :
    (buildImage envC10 cfgC10).2 = [BuildCall.fromSteps "FROM y"] :=
  (buildImage_dispatch envC10 cfgC10).1.mpr (by decide)
